import Mathlib

/-!
Verification of the WordPress → Storyblok migration mapping core.

This file gives a shallow embedding, in Lean, of the content-transformation
pipeline of the repository: the slug organizer (`StoryMapper.generateSlug` /
`generateUniqueSlug`), the external-asset deduplicator
(`AssetExtractor.extractAsset`), the richtext fallback
(`HtmlToRichtextTransformer.transform`), the link resolver
(`LinkTransformer.createLinkObject`) and the field-transformer dispatcher
(`FieldTransformer.transform` with its named transforms).  External library
calls (slugify, cheerio, the WHATWG URL class, the Storyblok richtext parser,
network downloads) are modelled either by explicit Lean functions faithful to
the library's documented behaviour on the inputs considered, or by oracle
parameters of the embedding.  All definitions are executable so that concrete
runs can be evaluated inside proofs.
-/

/-! ## Decimal rendering of naturals

Models JavaScript number-to-string interpolation (template literals such as
`baseSlug + "-" + counter`).  Defined with structural fuel so the kernel can
evaluate it. -/

def decDigitChar (d : Nat) : Char := Char.ofNat (48 + d)

def toDecimalAux (fuel n : Nat) : List Char :=
  match fuel with
  | 0 => []
  | fuel + 1 =>
    if n < 10 then [decDigitChar n]
    else toDecimalAux fuel (n / 10) ++ [decDigitChar (n % 10)]

def decList (n : Nat) : List Char := toDecimalAux (n + 1) n

def decRepr (n : Nat) : String := ⟨decList n⟩

theorem toDecimalAux_fuel (n : Nat) : ∀ f₁ f₂, n < f₁ → n < f₂ →
    toDecimalAux f₁ n = toDecimalAux f₂ n := by
  induction n using Nat.strong_induction_on with
  | _ n ih =>
    intro f₁ f₂ h₁ h₂
    match f₁, f₂ with
    | f₁ + 1, f₂ + 1 =>
      simp only [toDecimalAux]
      by_cases h : n < 10
      · simp [h]
      · simp only [h, if_false]
        have hn : 0 < n := by omega
        have hdiv : n / 10 < n := Nat.div_lt_self hn (by omega)
        rw [ih (n / 10) hdiv f₁ f₂ (by omega) (by omega)]

theorem decList_eq (n : Nat) :
    decList n = if n < 10 then [decDigitChar n]
                else decList (n / 10) ++ [decDigitChar (n % 10)] := by
  by_cases h : n < 10
  · simp [decList, toDecimalAux, h]
  · have hn : 0 < n := by omega
    have hdiv : n / 10 < n := Nat.div_lt_self hn (by omega)
    have h1 : decList n = toDecimalAux n (n / 10) ++ [decDigitChar (n % 10)] := by
      simp [decList, toDecimalAux, h]
    have h2 : toDecimalAux n (n / 10) = decList (n / 10) :=
      toDecimalAux_fuel (n / 10) n (n / 10 + 1) hdiv (by omega)
    rw [h1, h2, if_neg h]

theorem decList_ne_nil (n : Nat) : decList n ≠ [] := by
  rw [decList_eq]
  by_cases h : n < 10 <;> simp [h]

theorem decDigitChar_inj : ∀ a, a < 10 → ∀ b, b < 10 →
    decDigitChar a = decDigitChar b → a = b := by decide

theorem decList_inj : ∀ m n : Nat, decList m = decList n → m = n := by
  intro m
  induction m using Nat.strong_induction_on with
  | _ m ih =>
    intro n h
    rw [decList_eq m, decList_eq n] at h
    by_cases hm : m < 10 <;> by_cases hn : n < 10
    · simp only [hm, hn, if_true, List.cons.injEq] at h
      exact decDigitChar_inj m hm n hn h.1
    · exfalso
      simp only [hm, hn, if_true, if_false] at h
      have hlen := congrArg List.length h
      simp only [List.length_cons, List.length_nil, List.length_append] at hlen
      exact decList_ne_nil (n / 10) (List.length_eq_zero.mp (by omega))
    · exfalso
      simp only [hm, hn, if_true, if_false] at h
      have hlen := congrArg List.length h
      simp only [List.length_cons, List.length_nil, List.length_append] at hlen
      exact decList_ne_nil (m / 10) (List.length_eq_zero.mp (by omega))
    · simp only [hm, hn, if_false] at h
      have h' := congrArg List.reverse h
      simp only [List.reverse_append, List.reverse_cons, List.reverse_nil,
        List.nil_append, List.cons_append, List.cons.injEq] at h'
      obtain ⟨hdig, hrest⟩ := h'
      have hmod : m % 10 = n % 10 :=
        decDigitChar_inj _ (Nat.mod_lt _ (by omega)) _ (Nat.mod_lt _ (by omega)) hdig

      have hrev : decList (m / 10) = decList (n / 10) := by
        have := congrArg List.reverse hrest
        simpa using this
      have hdivlt : m / 10 < m := Nat.div_lt_self (by omega) (by omega)
      have hdiv : m / 10 = n / 10 := ih (m / 10) hdivlt (n / 10) hrev
      omega

theorem decRepr_inj {m n : Nat} (h : decRepr m = decRepr n) : m = n := by
  apply decList_inj
  have : (decRepr m).data = (decRepr n).data := by rw [h]
  simpa [decRepr] using this

/-! ## String helpers -/

theorem string_data_append (s t : String) : (s ++ t).data = s.data ++ t.data := rfl

theorem string_eq_of_data {s t : String} (h : s.data = t.data) : s = t := by
  cases s; cases t; exact congrArg String.mk h

/-- Model of `String.prototype.toLowerCase` for ASCII input, written so that
the kernel can evaluate it. -/
def asciiLowerChar (c : Char) : Char :=
  if 'A' ≤ c && c ≤ 'Z' then Char.ofNat (c.toNat + 32) else c

def lowerStr (s : String) : String := ⟨s.data.map asciiLowerChar⟩

example : lowerStr "Coffee" = "coffee" := by decide

/-! ## Model of the slugify library

The mapper calls `slugify(text.toLowerCase(), { remove: /[*+~.()'"!:@]/g,
lower: true, strict: true })`.  Under the `strict` option the library keeps
alphanumerics, turns whitespace and hyphen runs into a single hyphen
separator, and deletes every other ASCII character without inserting a
separator; leading and trailing separators are trimmed.  The model below
implements exactly that behaviour for ASCII input. -/

def sepChar (c : Char) : Bool := c = ' ' || c = '\t' || c = '\n' || c = '\r' || c = '-'

def splitWordsAux : List Char → List Char → List (List Char)
  | acc, [] => if acc.isEmpty then [] else [acc.reverse]
  | acc, c :: rest =>
    if c = ' ' then
      if acc.isEmpty then splitWordsAux [] rest
      else acc.reverse :: splitWordsAux [] rest
    else splitWordsAux (c :: acc) rest

def slugifyLib (s : String) : String :=
  let cs := s.data.filterMap fun c =>
    if c.isAlphanum then some c else if sepChar c then some ' ' else none
  ⟨List.intercalate ['-'] (splitWordsAux [] cs)⟩

example : slugifyLib "coffee" = "coffee" := by decide
example : slugifyLib "dial in your daily cup" = "dial-in-your-daily-cup" := by decide
example : slugifyLib "foo&bar  baz!" = "foobar-baz" := by decide

/-! ## StoryMapper slug generation

Shallow embedding of `StoryMapper.generateSlug` and
`StoryMapper.generateUniqueSlug` (src/packages/mapping/src/core/StoryMapper.js).
The run-scoped `existingSlugs` set of the mapper instance is modelled as a
list of strings; `now` stands for `Date.now()` in the empty-input branch. -/

def slugCandidate (base : String) (c : Nat) : String := base ++ "-" ++ decRepr c

def slugLoop (base : String) (used : List String) : Nat → Nat → String
  | c, 0 => slugCandidate base c
  | c, fuel + 1 =>
    if slugCandidate base c ∈ used then slugLoop base used (c + 1) fuel
    else slugCandidate base c

def generateSlugFrom (base : String) (used : List String) : String :=
  if base ∈ used then slugLoop base used 1 (used.length + 1) else base

def digitLeading (s : String) : Bool :=
  match s.data with
  | [] => false
  | c :: _ => c.isDigit

def slugBase (text : String) (now : Nat) : String :=
  let b := slugifyLib (lowerStr text)
  if b = "" || digitLeading b then
    "story-" ++ (if b = "" then decRepr now else b)
  else b

def generateSlug (text : String) (used : List String) (now : Nat) : String :=
  if text = "" then "story-" ++ decRepr now
  else generateSlugFrom (slugBase text now) used

def generateUniqueSlug (used : List String) (text : String) (now : Nat) :
    String × List String :=
  let s := generateSlug text used now
  (s, used ++ [s])

/-- One migration run over a list of (locale, raw slug text) source items, in
processing order: a single `StoryMapper` instance is used for every locale, so
all items share one `existingSlugs` registry (`mapStoriesWithOrganization`
loops over languages with the same `this.storyMapper`). -/
def mapRunAux : List (String × String) → List String → Nat → List (String × String)
  | [], _, _ => []
  | (loc, t) :: rest, used, now =>
    let p := generateUniqueSlug used t now
    (loc, p.1) :: mapRunAux rest p.2 now

def mapRun (items : List (String × String)) (now : Nat) : List (String × String) :=
  mapRunAux items [] now

example : mapRun [("en", "Coffee"), ("en", "Coffee")] 0 =
    [("en", "coffee"), ("en", "coffee-1")] := by decide
example : mapRun [("en", "coffee"), ("es", "coffee")] 0 =
    [("en", "coffee"), ("es", "coffee-1")] := by decide

/-! ## Slug collision lemmas -/

theorem slugCandidate_inj {b : String} {m n : Nat}
    (h : slugCandidate b m = slugCandidate b n) : m = n := by
  have hd : (slugCandidate b m).data = (slugCandidate b n).data := by rw [h]
  simp only [slugCandidate, string_data_append] at hd
  exact decList_inj m n (List.append_cancel_left hd)

theorem slugCandidate_ne_base (b : String) (c : Nat) : slugCandidate b c ≠ b := by
  intro h
  have hd : (b.data ++ ("-" : String).data) ++ (decRepr c).data = b.data := by
    rw [← string_data_append, ← string_data_append]
    exact congrArg String.data h
  have hlen := congrArg List.length hd
  simp only [List.length_append] at hlen
  have h1 : ("-" : String).data.length = 1 := rfl
  have h3 : 0 < ((decRepr c).data).length := List.length_pos.mpr (decList_ne_nil c)
  omega

theorem slugLoop_spec (b : String) (used : List String) :
    ∀ fuel c c₀, c ≤ c₀ → c₀ - c ≤ fuel →
    slugCandidate b c₀ ∉ used →
    (∀ j, c ≤ j → j < c₀ → slugCandidate b j ∈ used) →
    slugLoop b used c fuel = slugCandidate b c₀ := by
  intro fuel
  induction fuel with
  | zero =>
    intro c c₀ hle hfuel hfree _
    have hc : c = c₀ := by omega
    subst hc
    rfl
  | succ fuel ih =>
    intro c c₀ hle hfuel hfree hmem
    simp only [slugLoop]
    by_cases hc : slugCandidate b c ∈ used
    · rw [if_pos hc]
      have hne : c ≠ c₀ := fun h => hfree (h ▸ hc)
      exact ih (c + 1) c₀ (by omega) (by omega) hfree
        (fun j h1 h2 => hmem j (by omega) h2)
    · rw [if_neg hc]
      have hcc : c = c₀ := by
        by_contra hne
        exact hc (hmem c (le_refl c) (by omega))
      rw [hcc]

theorem exists_free_candidate (b : String) (used : List String) :
    ∃ c, c ≤ used.length ∧ slugCandidate b (c + 1) ∉ used := by
  by_contra hcon
  push_neg at hcon
  have hsub : (Finset.range (used.length + 1)).image
      (fun c => slugCandidate b (c + 1)) ⊆ used.toFinset := by
    intro s hs
    simp only [Finset.mem_image, Finset.mem_range] at hs
    obtain ⟨c, hc, rfl⟩ := hs
    exact List.mem_toFinset.mpr (hcon c (by omega))
  have hcard : ((Finset.range (used.length + 1)).image
      (fun c => slugCandidate b (c + 1))).card = used.length + 1 := by
    rw [Finset.card_image_of_injOn, Finset.card_range]
    intro x _ y _ hxy
    have := slugCandidate_inj hxy
    omega
  have h1 := Finset.card_le_card hsub
  have h2 := List.toFinset_card_le used
  omega

theorem generateSlugFrom_spec (b : String) (used : List String) (hb : b ∈ used) :
    ∃ c₀, 1 ≤ c₀ ∧ generateSlugFrom b used = slugCandidate b c₀ ∧
      slugCandidate b c₀ ∉ used ∧
      ∀ j, 1 ≤ j → j < c₀ → slugCandidate b j ∈ used := by
  have hP : ∃ c, slugCandidate b (c + 1) ∉ used := by
    obtain ⟨c, _, hc⟩ := exists_free_candidate b used
    exact ⟨c, hc⟩
  obtain ⟨c', hc'le, hc'⟩ := exists_free_candidate b used
  refine ⟨Nat.find hP + 1, by omega, ?_, Nat.find_spec hP, ?_⟩
  · have hfind : Nat.find hP ≤ c' := Nat.find_min' hP hc'
    simp only [generateSlugFrom, if_pos hb]
    apply slugLoop_spec b used (used.length + 1) 1 (Nat.find hP + 1) (by omega)
      (by omega) (Nat.find_spec hP)
    intro j h1 h2
    have hj : ¬ slugCandidate b ((j - 1) + 1) ∉ used :=
      Nat.find_min hP (by omega)
    have hjeq : (j - 1) + 1 = j := by omega
    rw [hjeq] at hj
    exact not_not.mp hj
  · intro j h1 h2
    have hj : ¬ slugCandidate b ((j - 1) + 1) ∉ used :=
      Nat.find_min hP (by omega)
    have hjeq : (j - 1) + 1 = j := by omega
    rw [hjeq] at hj
    exact not_not.mp hj

theorem generateSlugFrom_not_mem (b : String) (used : List String) :
    generateSlugFrom b used ∉ used := by
  by_cases hb : b ∈ used
  · obtain ⟨c₀, _, heq, hfree, _⟩ := generateSlugFrom_spec b used hb
    rw [heq]
    exact hfree
  · simp only [generateSlugFrom, if_neg hb]
    exact hb

theorem generateSlug_not_mem (t : String) (used : List String) (now : Nat)
    (ht : t ≠ "") : generateSlug t used now ∉ used := by
  simp only [generateSlug, if_neg ht]
  exact generateSlugFrom_not_mem _ used

theorem generateSlugFrom_next (b : String) (k : Nat) :
    generateSlugFrom b
        (b :: (List.range k).map (fun i => slugCandidate b (i + 1))) =
      slugCandidate b (k + 1) := by
  set used := b :: (List.range k).map (fun i => slugCandidate b (i + 1)) with hused
  have hb : b ∈ used := List.mem_cons_self b _
  have hfree : slugCandidate b (k + 1) ∉ used := by
    intro hmem
    rcases List.mem_cons.mp hmem with h | h
    · exact slugCandidate_ne_base b (k + 1) h
    · obtain ⟨i, hi, hie⟩ := List.mem_map.mp h
      have h1 := slugCandidate_inj hie
      have h2 := List.mem_range.mp hi
      omega
  have hlen : used.length = k + 1 := by simp [hused]
  simp only [generateSlugFrom, if_pos hb]
  apply slugLoop_spec b used (used.length + 1) 1 (k + 1) (by omega) (by omega) hfree
  intro j h1 h2
  rw [hused]
  exact List.mem_cons.mpr (Or.inr (List.mem_map.mpr
    ⟨j - 1, List.mem_range.mpr (by omega), by congr 1; omega⟩))

theorem mapRunAux_replicate (loc t : String) (now : Nat) (ht : t ≠ "") :
    ∀ m k, mapRunAux (List.replicate m (loc, t))
        ((slugBase t now) ::
          (List.range k).map (fun i => slugCandidate (slugBase t now) (i + 1))) now =
      (List.range' (k + 1) m).map (fun c => (loc, slugCandidate (slugBase t now) c)) := by
  intro m
  induction m with
  | zero => intro k; rfl
  | succ m ih =>
    intro k
    set b := slugBase t now with hb
    simp only [List.replicate_succ, mapRunAux, generateUniqueSlug, generateSlug,
      if_neg ht]
    rw [generateSlugFrom_next b k]
    have hstep : (b :: (List.range k).map (fun i => slugCandidate b (i + 1))) ++
        [slugCandidate b (k + 1)] =
        b :: (List.range (k + 1)).map (fun i => slugCandidate b (i + 1)) := by
      simp [List.range_succ]
    rw [hstep, ih (k + 1)]
    rw [List.range'_succ]
    rfl

/-- C1 (amended): within a run the first item with a given base slug keeps the
bare slug, and each subsequent colliding item receives suffixes -1, -2, … in
assignment order (the counter of `StoryMapper.generateSlug` starts at 1). -/
theorem generateSlug_collision_suffixes (loc t : String) (now n : Nat) (ht : t ≠ "") :
    mapRun (List.replicate (n + 1) (loc, t)) now =
      (loc, slugBase t now) ::
        (List.range n).map (fun i => (loc, slugCandidate (slugBase t now) (i + 1))) := by
  set b := slugBase t now with hb
  simp only [mapRun, List.replicate_succ, mapRunAux, generateUniqueSlug,
    generateSlug, if_neg ht]
  have h0 : generateSlugFrom b [] = b := by
    simp [generateSlugFrom]
  rw [h0]
  have hinit : ([] : List String) ++ [b] =
      b :: (List.range 0).map (fun i => slugCandidate b (i + 1)) := by simp
  rw [hinit, mapRunAux_replicate loc t now ht n 0]
  congr 1
  rw [List.range'_eq_map_range]
  rw [List.map_map]
  apply List.map_congr_left
  intro i _
  simp [Nat.add_comm]

theorem mapRunAux_nodup (now : Nat) :
    ∀ (items : List (String × String)) (used : List String),
    (∀ p ∈ items, p.2 ≠ "") →
    (mapRunAux items used now).Pairwise (fun a b => a.2 ≠ b.2) ∧
      ∀ q ∈ mapRunAux items used now, q.2 ∉ used := by
  intro items
  induction items with
  | nil => intro used _; exact ⟨List.Pairwise.nil, by simp [mapRunAux]⟩
  | cons p rest ih =>
    intro used h
    obtain ⟨loc, t⟩ := p
    have ht : t ≠ "" := h (loc, t) (List.mem_cons_self _ _)
    have hrest : ∀ q ∈ rest, q.2 ≠ "" := fun q hq => h q (List.mem_cons_of_mem _ hq)
    simp only [mapRunAux, generateUniqueSlug]
    set s := generateSlug t used now with hs
    have hnot : s ∉ used := generateSlug_not_mem t used now ht
    obtain ⟨ihp, ihm⟩ := ih (used ++ [s]) hrest
    constructor
    · apply List.Pairwise.cons
      · intro q hq
        have := ihm q hq
        simp only [List.mem_append, List.mem_singleton] at this
        push_neg at this
        exact fun he => this.2 he.symm
      · exact ihp
    · intro q hq
      rcases List.mem_cons.mp hq with h1 | h1
      · rw [h1]; exact hnot
      · have := ihm q h1
        simp only [List.mem_append, List.mem_singleton] at this
        push_neg at this
        exact this.1

/-- C2 (amended): all slugs assigned during one run are pairwise distinct,
across locales as well as within each locale, because the single
`StoryMapper` instance keeps one `existingSlugs` registry for the whole run
(so a cross-locale collision also receives a suffix).  This holds whenever
each item's slug text is nonempty (the empty-text branch of `generateSlug`
returns a timestamp slug without consulting the registry). -/
theorem mapRun_slugs_pairwise_distinct (items : List (String × String)) (now : Nat)
    (h : ∀ p ∈ items, p.2 ≠ "") :
    (mapRun items now).Pairwise (fun a b => a.2 ≠ b.2) :=
  (mapRunAux_nodup now items [] h).1

/-- C2 witness: a run with a same-locale collision and a cross-locale
collision produces pairwise-distinct slugs. -/
theorem mapRun_slugs_pairwise_distinct_witness :
    (∀ p ∈ [("en", "coffee"), ("en", "coffee"), ("es", "coffee")], p.2 ≠ "") ∧
      (mapRun [("en", "coffee"), ("en", "coffee"), ("es", "coffee")] 0).Pairwise
        (fun a b => a.2 ≠ b.2) :=
  ⟨by decide, mapRun_slugs_pairwise_distinct
    [("en", "coffee"), ("en", "coffee"), ("es", "coffee")] 0 (by decide)⟩

/-- C2 counterexample: two items with the same base slug in *different*
locales do not both keep the bare slug: the second one is suffixed, because
the slug registry is shared across locales, refuting the claim that slug
uniqueness is scoped per locale rather than globally. -/
theorem crossLocale_slug_counterexample :
    mapRun [("en", "coffee"), ("es", "coffee")] 0 =
        [("en", "coffee"), ("es", "coffee-1")] ∧
      (("es", "coffee-1") : String × String) ≠ ("es", "coffee") := by decide

/-- C1 witness: two items titled "Coffee" in one locale produce the slugs
"coffee" and "coffee-1". -/
theorem generateSlug_collision_suffixes_witness :
    mapRun [("en", "Coffee"), ("en", "Coffee")] 0 =
      [("en", "coffee"), ("en", "coffee-1")] := by
  have h := generateSlug_collision_suffixes "en" "Coffee" 0 1 (by decide)
  rw [show List.replicate 2 (("en", "Coffee") : String × String) =
    [("en", "Coffee"), ("en", "Coffee")] from rfl] at h
  rw [h]
  decide

/-- C1 counterexample: the collision counter of `StoryMapper.generateSlug`
starts at 1, so two items titled "Coffee" produce "coffee" and "coffee-1",
not "coffee" and "coffee-2" as claimed. -/
theorem slug_coffee_counterexample :
    (mapRun [("en", "Coffee"), ("en", "Coffee")] 0).map Prod.snd =
        ["coffee", "coffee-1"] ∧
      (mapRun [("en", "Coffee"), ("en", "Coffee")] 0).map Prod.snd ≠
        ["coffee", "coffee-2"] := by decide

/-! ## AssetExtractor: external-asset deduplication

Shallow embedding of `AssetExtractor.extractAsset`, `findExistingAsset` and
`downloadAsset` (src/packages/mapping/src/extractors/AssetExtractor.js).  The
network download is an oracle `download : String → Option DownloadResult`
(`downloadAsset` returns `null` on any failure, which the oracle models as
`none`); the `assets` Map is the registry in insertion order; `nextId` is a
deterministic id supply standing in for `generateAssetId`; `downloads`
records every URL for which a download was actually performed.  The source's
`filename` template contains an unresolved `this.getSpaceId()` placeholder
(the template literal misses a `$`), rendered here as the fixed text
"SPACE_ID_PLACEHOLDER". -/

structure DownloadResult where
  originalFilename : String
  filename : String
  localPath : String
  relativePath : String
  size : Nat
  subfolder : String
deriving DecidableEq

structure AssetMetadata where
  alt : String
  title : String
  copyright : String
  focus : Option String
deriving DecidableEq

structure AssetInfo where
  id : Nat
  alt : String
  name : String
  focus : Option String
  title : String
  filename : String
  copyright : String
  originalUrl : String
  localPath : String
  relativePath : String
  size : Nat
  subfolder : String
deriving DecidableEq

structure ExtractorState where
  assets : List AssetInfo
  nextId : Nat
  downloads : List String
deriving DecidableEq

def findExistingAsset (assets : List AssetInfo) (url : String) : Option AssetInfo :=
  assets.find? (fun a => a.originalUrl == url)

def createStoryblokAssetInfo (assetId : Nat) (originalUrl : String)
    (dr : DownloadResult) (md : AssetMetadata) : AssetInfo :=
  { id := assetId
    alt := md.alt
    name := dr.originalFilename
    focus := md.focus
    title := md.title
    filename := "https://a.storyblok.com/f/SPACE_ID_PLACEHOLDER/" ++ dr.relativePath
    copyright := md.copyright
    originalUrl := originalUrl
    localPath := dr.localPath
    relativePath := dr.relativePath
    size := dr.size
    subfolder := dr.subfolder }

def extractAsset (download : String → Option DownloadResult)
    (st : ExtractorState) (url : String) (md : AssetMetadata) :
    Option AssetInfo × ExtractorState :=
  match findExistingAsset st.assets url with
  | some existing => (some existing, st)
  | none =>
    let st' : ExtractorState :=
      { assets := st.assets, nextId := st.nextId, downloads := st.downloads ++ [url] }
    match download url with
    | none => (none, st')
    | some dr =>
      let info := createStoryblokAssetInfo st.nextId url dr md
      (some info,
        { assets := st.assets ++ [info], nextId := st.nextId + 1,
          downloads := st.downloads ++ [url] })

/-- Dedup contract of the registry: any two stored descriptors with the same
origin URL are the same entry. -/
def UrlUnique (assets : List AssetInfo) : Prop :=
  assets.Pairwise fun a b => a.originalUrl = b.originalUrl → a = b

theorem find?_append_of_none {α : Type} (p : α → Bool) (l₁ l₂ : List α)
    (h : l₁.find? p = none) : (l₁ ++ l₂).find? p = l₂.find? p := by
  induction l₁ with
  | nil => simp
  | cons x xs ih =>
    cases hp : p x
    · simp only [List.cons_append, List.find?, hp] at h ⊢
      exact ih h
    · simp only [List.find?, hp] at h
      exact Option.noConfusion h

/-- C3: asset deduplication is idempotent by URL.  After a first successful
resolution of `url` produced descriptor `a` and state `st₁`, resolving `url`
again returns the very same descriptor and leaves the state untouched (in
particular `downloads` does not grow: the download happened only on the first
call), and the registry keeps the property that equal origin URLs mean the
same descriptor. -/
theorem extractAsset_idempotent (download : String → Option DownloadResult)
    (st : ExtractorState) (url : String) (md : AssetMetadata)
    (a : AssetInfo) (st₁ : ExtractorState)
    (h : extractAsset download st url md = (some a, st₁))
    (hu : UrlUnique st.assets) :
    extractAsset download st₁ url md = (some a, st₁) ∧ UrlUnique st₁.assets := by
  unfold extractAsset at h
  cases hfind : findExistingAsset st.assets url with
  | some existing =>
    rw [hfind] at h
    have ha : existing = a := by
      have := congrArg Prod.fst h
      simpa using this
    have hst : st = st₁ := by
      have := congrArg Prod.snd h
      simpa using this
    subst ha
    subst hst
    constructor
    · unfold extractAsset
      rw [hfind]
    · exact hu
  | none =>
    rw [hfind] at h
    cases hdl : download url with
    | none =>
      rw [hdl] at h
      have := congrArg Prod.fst h
      simp at this
    | some dr =>
      rw [hdl] at h
      have h' : (some (createStoryblokAssetInfo st.nextId url dr md),
          (⟨st.assets ++ [createStoryblokAssetInfo st.nextId url dr md],
            st.nextId + 1, st.downloads ++ [url]⟩ : ExtractorState)) =
          (some a, st₁) := h
      have ha : createStoryblokAssetInfo st.nextId url dr md = a := by
        have hfst := congrArg Prod.fst h'
        simpa using hfst
      have hst : st₁ =
          (⟨st.assets ++ [a], st.nextId + 1, st.downloads ++ [url]⟩ : ExtractorState) := by
        have hsnd := congrArg Prod.snd h'
        rw [ha] at hsnd
        exact hsnd.symm
      have hurl : a.originalUrl = url := by
        rw [← ha]
        rfl
      have hnone : ∀ x ∈ st.assets, ¬ (x.originalUrl == url) = true :=
        fun x hx => List.find?_eq_none.mp hfind x hx
      constructor
      · unfold extractAsset
        have hfind₁ : findExistingAsset st₁.assets url = some a := by
          rw [hst]
          unfold findExistingAsset
          rw [find?_append_of_none _ _ _ hfind]
          simp [List.find?, hurl]
        rw [hfind₁]
      · rw [hst]
        apply List.pairwise_append.mpr
        refine ⟨hu, List.pairwise_singleton _ _, ?_⟩
        intro x hx y hy hxy
        exfalso
        have hyx : y = a := List.mem_singleton.mp hy
        apply hnone x hx
        subst hyx
        rw [hxy, hurl]
        exact beq_self_eq_true url

/-- Concrete download oracle used by the C3 witness. -/
def demoDownload : String → Option DownloadResult := fun _ =>
  some ⟨"cup.jpg", "abcd1234_cup.jpg",
        "mapped-data/assets/images/abcd1234_cup.jpg",
        "images/abcd1234_cup.jpg", 123, "images"⟩

def demoMd : AssetMetadata := ⟨"", "", "", none⟩

def demoAsset : AssetInfo :=
  createStoryblokAssetInfo 1 "https://ext.example/cup.jpg"
    ⟨"cup.jpg", "abcd1234_cup.jpg",
     "mapped-data/assets/images/abcd1234_cup.jpg",
     "images/abcd1234_cup.jpg", 123, "images"⟩ demoMd

/-- C3 witness: a concrete second resolution of the same URL returns the
stored descriptor unchanged and performs no further download. -/
theorem extractAsset_idempotent_witness :
    extractAsset demoDownload
        (⟨[demoAsset], 2, ["https://ext.example/cup.jpg"]⟩ : ExtractorState)
        "https://ext.example/cup.jpg" demoMd =
      (some demoAsset,
        (⟨[demoAsset], 2, ["https://ext.example/cup.jpg"]⟩ : ExtractorState)) ∧
    UrlUnique [demoAsset] :=
  extractAsset_idempotent demoDownload
    (⟨[], 1, []⟩ : ExtractorState)
    "https://ext.example/cup.jpg" demoMd demoAsset
    (⟨[demoAsset], 2, ["https://ext.example/cup.jpg"]⟩ : ExtractorState)
    (by decide) List.Pairwise.nil

/-! ## HtmlToRichtextTransformer

Shallow embedding of `HtmlToRichtextTransformer.transform` and
`createFallbackRichtext` (src/packages/mapping/src/transformers/
HtmlToRichtextTransformer.js).  The external `@storyblok/richtext` parser is
an oracle `parse : String → Option RtDoc` (`none` models the parser
throwing, which the source catches), `process` models
`processMediaElements` (cheerio DOM clean-up applied before parsing), and
`strip` models `cheerio.load(html).text()` (the text content of the parsed
markup), which the fallback applies to the *original* html. -/

inductive RtNode where
  | text (s : String)
  | paragraph (content : List RtNode)
  | node (kind : String) (content : List RtNode)

structure RtDoc where
  content : List RtNode

def isWsChar (c : Char) : Bool := c = ' ' || c = '\t' || c = '\n' || c = '\r'

/-- Model of `String.prototype.trim`, written so the kernel can evaluate it. -/
def trimStr (s : String) : String :=
  ⟨((s.data.dropWhile isWsChar).reverse.dropWhile isWsChar).reverse⟩

/-- Model of `cheerio.load(html).text()` on plain markup: characters between
`<` and `>` are tag markup, everything else is text content. -/
def stripTagsAux : Bool → List Char → List Char
  | _, [] => []
  | true, c :: rest =>
    if c = '>' then stripTagsAux false rest else stripTagsAux true rest
  | false, c :: rest =>
    if c = '<' then stripTagsAux true rest else c :: stripTagsAux false rest

def stripTagsModel (html : String) : String := ⟨stripTagsAux false html.data⟩

namespace HtmlToRichtextTransformer

def createFallbackRichtext (strip : String → String) (html : String) : RtDoc :=
  let text := trimStr (strip html)
  if text = "" then ⟨[]⟩
  else ⟨[RtNode.paragraph [RtNode.text text]]⟩

def transform (parse : String → Option RtDoc) (process : String → String)
    (strip : String → String) (html : String) : RtDoc :=
  if trimStr html = "" then ⟨[]⟩
  else
    match parse (process html) with
    | some doc => doc
    | none => createFallbackRichtext strip html

end HtmlToRichtextTransformer

/-- Checks the shape required by the claim: at least one paragraph node whose
content is exactly the given text. -/
def hasTextParagraph (d : RtDoc) (t : String) : Bool :=
  d.content.any fun n =>
    match n with
    | RtNode.paragraph cs =>
      cs.any fun m =>
        match m with
        | RtNode.text s => s == t
        | _ => false
    | _ => false

/-- C4 (amended): the richtext transform never throws (every error of the
parser is caught), and on a parse failure it returns the fallback: a single
plain-text paragraph holding the tag-stripped text when that text is
nonempty, and an *empty* document when the stripped text is empty. -/
theorem transform_fallback_characterization
    (parse : String → Option RtDoc) (process strip : String → String)
    (html : String) (hfail : parse (process html) = none)
    (hne : trimStr html ≠ "") :
    HtmlToRichtextTransformer.transform parse process strip html =
      (if trimStr (strip html) = "" then (⟨[]⟩ : RtDoc)
       else ⟨[RtNode.paragraph [RtNode.text (trimStr (strip html))]]⟩) := by
  simp only [HtmlToRichtextTransformer.transform, if_neg hne, hfail,
    HtmlToRichtextTransformer.createFallbackRichtext]

/-- C4 witness: a failing parse on markup with text content falls back to a
single paragraph containing the stripped text. -/
theorem transform_fallback_characterization_witness :
    HtmlToRichtextTransformer.transform (fun _ => none) id stripTagsModel
        "<p>Hello</p>" = ⟨[RtNode.paragraph [RtNode.text "Hello"]]⟩ := by
  have h := transform_fallback_characterization (fun _ => none) id
    stripTagsModel "<p>Hello</p>" rfl (by decide)
  rw [h]
  rfl

/-- C4 counterexample: malformed image markup whose stripped text is empty.
On a parse failure the transform returns an *empty* document — there is no
text paragraph at all, refuting "always returns a document with at least a
text paragraph containing the stripped text". -/
theorem richtext_fallback_empty_counterexample :
    HtmlToRichtextTransformer.transform (fun _ => none) id stripTagsModel
        "<img src=x.png>" = ⟨[]⟩ ∧
      hasTextParagraph
        (HtmlToRichtextTransformer.transform (fun _ => none) id stripTagsModel
          "<img src=x.png>")
        (stripTagsModel "<img src=x.png>") = false := ⟨rfl, rfl⟩

/-! ## List/String scanning helpers for the URL and link model -/

def strStarts (s pat : String) : Bool := pat.data.isPrefixOf s.data

def strEnds (s pat : String) : Bool := pat.data.reverse.isPrefixOf s.data.reverse

def containsAux (pat : List Char) : List Char → Bool
  | [] => pat.isEmpty
  | c :: rest => pat.isPrefixOf (c :: rest) || containsAux pat rest

def strContains (s pat : String) : Bool := containsAux pat.data s.data

def splitOnChar (sep : Char) : List Char → List (List Char)
  | [] => [[]]
  | c :: rest =>
    let r := splitOnChar sep rest
    if c = sep then [] :: r
    else (c :: r.headD []) :: r.tail

def breakOnAux (pat : List Char) : List Char → Option (List Char × List Char)
  | [] => if pat.isEmpty then some ([], []) else none
  | c :: rest =>
    if pat.isPrefixOf (c :: rest) then some ([], (c :: rest).drop pat.length)
    else
      match breakOnAux pat rest with
      | some (b, a) => some (c :: b, a)
      | none => none

def trimSlashes (s : String) : String :=
  ⟨((s.data.dropWhile (fun c => c == '/')).reverse.dropWhile (fun c => c == '/')).reverse⟩

def dropLeadingLit (pre s : String) : String :=
  if pre.data.isPrefixOf s.data then ⟨s.data.drop pre.data.length⟩ else s

/-! ## Model of the WHATWG URL class

`LinkTransformer` relies on `new URL(url)`, `new URL(url, base)`,
`url.pathname`, `url.searchParams.delete` and `url.toString()`.  The model
below covers canonical lowercase http(s) URLs with simple paths and
`key=value` query strings — the shape of every URL this development reasons
about — plus relative references resolved against a root-path base. -/

structure UrlParts where
  scheme : String
  host : String
  path : String
  query : List (String × String)
deriving DecidableEq

def parseQuery (q : List Char) : List (String × String) :=
  (splitOnChar '&' q).filterMap fun piece =>
    if piece.isEmpty then none
    else
      match breakOnAux ['='] piece with
      | some (k, v) => some (⟨k⟩, ⟨v⟩)
      | none => some (⟨piece⟩, "")

def renderQuery (q : List (String × String)) : String :=
  if q.isEmpty then ""
  else "?" ++ ⟨List.intercalate ['&'] (q.map fun kv => kv.1.data ++ '=' :: kv.2.data)⟩

def urlToString (u : UrlParts) : String :=
  u.scheme ++ "://" ++ u.host ++ u.path ++ renderQuery u.query

def parseAbsUrl (s : String) : Option UrlParts :=
  match breakOnAux "://".data s.data with
  | none => none
  | some (schemeCs, rest) =>
    if schemeCs.isEmpty then none
    else
      let host := rest.takeWhile fun c => c != '/' && c != '?'
      if host.isEmpty then none
      else
        match rest.drop host.length with
        | [] => some ⟨⟨schemeCs⟩, ⟨host⟩, "/", []⟩
        | '?' :: q => some ⟨⟨schemeCs⟩, ⟨host⟩, "/", parseQuery q⟩
        | rest' =>
          let path := rest'.takeWhile fun c => c != '?'
          let query :=
            match rest'.drop path.length with
            | '?' :: q => parseQuery q
            | _ => []
          some ⟨⟨schemeCs⟩, ⟨host⟩, ⟨path⟩, query⟩

def hasScheme (url : String) : Bool :=
  let pre := url.data.takeWhile fun c => c != ':' && c != '/' && c != '?' && c != '#'
  match url.data.drop pre.length with
  | ':' :: _ =>
    !pre.isEmpty &&
      pre.all (fun c => c.isAlpha || c.isDigit || c = '+' || c = '-' || c = '.') &&
      (match pre with
       | c :: _ => c.isAlpha
       | [] => false)
  | _ => false

/-- Models `new URL(url, base)` for the URLs considered: an absolute `url`
parses on its own; a scheme-relative or path-relative `url` takes scheme and
host from the base, resolving paths against the base's root.  `none` models
the constructor throwing (or, for opaque-path schemes such as `mailto:`,
stands for "carried through unchanged" at the call sites below). -/
def parseWithBase (url base : String) : Option UrlParts :=
  if hasScheme url then parseAbsUrl url
  else if strStarts url "//" then
    match parseAbsUrl base with
    | none => none
    | some b => parseAbsUrl (b.scheme ++ ":" ++ url)
  else
    match parseAbsUrl base with
    | none => none
    | some b =>
      let pq := if strStarts url "/" then url.data else '/' :: url.data
      let path := pq.takeWhile fun c => c != '?'
      let query :=
        match pq.drop path.length with
        | '?' :: q => parseQuery q
        | _ => []
      some ⟨b.scheme, b.host, ⟨path⟩, query⟩

example : parseAbsUrl "https://site.example/blog/missing" =
    some ⟨"https", "site.example", "/blog/missing", []⟩ := by decide

/-! ## LinkTransformer

Shallow embedding of `LinkTransformer` (src/packages/mapping/src/
transformers/LinkTransformer.js): `detectLinkType`, `isAssetUrl`,
`isInternalUrl`, `rewriteUrl` with the two default rewriters registered by
`registerDefaultRewriters` (the `asset` attachment rewriter and the `*`
WordPress-query-parameter rewriter, iterated in registration order),
`rewriteStoryUrl`, `rewriteAssetUrl`, `addLinkTypeProperties`,
`extractSlugFromUrl`, `cleanUrl` and `createLinkObject`.  A JS story `id` of
0 models a falsy/absent id; the optional `context.assetMapper` collaborator
is not modelled (absent in the contexts considered). -/

structure Story where
  slug : String
  fullSlug : String
  path : String
  id : Nat
deriving DecidableEq

structure SbAsset where
  id : Nat
  filename : String
deriving DecidableEq

structure LinkContext where
  siteUrl : Option String
  stories : List Story
  assets : List SbAsset
  taxonomiesCreatePages : Bool
  media : List (Nat × String)
deriving DecidableEq

inductive LinkType where
  | story
  | asset
  | url
  | email
deriving DecidableEq

structure LinkObject where
  id : String
  url : String
  linktype : LinkType
  fieldtype : String
  cachedUrl : String
  target : Option String
  email : Option String
deriving DecidableEq

namespace LinkTransformer

def assetExtensionList : List String :=
  [".jpg", ".jpeg", ".png", ".gif", ".webp", ".svg",
   ".pdf", ".doc", ".docx", ".xls", ".xlsx", ".ppt", ".pptx",
   ".mp4", ".avi", ".mov", ".wmv", ".mp3", ".wav", ".ogg",
   ".zip", ".rar", ".tar", ".gz"]

def isAssetUrl (url : String) : Bool :=
  assetExtensionList.any fun ext => strContains (lowerStr url) ext

def isInternalUrl (ctx : LinkContext) (url : String) : Bool :=
  match ctx.siteUrl with
  | none => false
  | some site =>
    match parseWithBase url site with
    | some u =>
      match parseAbsUrl site with
      | some s => u.host == s.host
      | none => !(strContains url "://") && !(strStarts url "//")
    | none => !(strContains url "://") && !(strStarts url "//")

/-- The `wp-attachment` detector's second regex is written
`/\/(\\d+)\/attachment\//` in the source: inside a regex literal `\\d`
denotes a literal backslash followed by `d`, so the pattern only matches a
slash, a backslash, one or more `d` characters and `/attachment/`. -/
def dropDs : List Char → List Char
  | 'd' :: rest => dropDs rest
  | l => l

def attachRegexAt : List Char → Bool
  | '/' :: '\\' :: 'd' :: rest => "/attachment/".data.isPrefixOf (dropDs rest)
  | _ => false

def anyPos (p : List Char → Bool) : List Char → Bool
  | [] => p []
  | c :: rest => p (c :: rest) || anyPos p rest

def wpAdminDetector (url : String) : Option LinkType :=
  if strContains url "/wp-admin/" || strContains url "/wp-login.php" then
    some LinkType.url
  else none

def wpAttachmentDetector (url : String) : Option LinkType :=
  if strContains url "/?attachment_id=" || anyPos attachRegexAt url.data then
    some LinkType.asset
  else none

def wpTaxonomyDetector (ctx : LinkContext) (url : String) : Option LinkType :=
  if strContains url "/category/" || strContains url "/tag/" then
    some (if ctx.taxonomiesCreatePages then LinkType.story else LinkType.url)
  else none

def detectLinkType (ctx : LinkContext) (url : String) : LinkType :=
  match wpAdminDetector url with
  | some t => t
  | none =>
    match wpAttachmentDetector url with
    | some t => t
    | none =>
      match wpTaxonomyDetector ctx url with
      | some t => t
      | none =>
        if strStarts url "mailto:" then LinkType.email
        else if strStarts url "tel:" then LinkType.url
        else if strStarts url "#" then LinkType.url
        else if isAssetUrl url then LinkType.asset
        else if isInternalUrl ctx url then LinkType.story
        else LinkType.url

def lastSegment (s : String) : String :=
  ⟨((splitOnChar '/' (trimSlashes s).data).getLastD [])⟩

def extractSlugFromUrl (ctx : LinkContext) (url : String) : String :=
  let site := ctx.siteUrl.getD ""
  match parseWithBase url site with
  | some u => lastSegment u.path
  | none => lastSegment url

def cleanUrl (ctx : LinkContext) (url : String) : String :=
  let site := ctx.siteUrl.getD ""
  match parseWithBase url site with
  | some u => trimSlashes u.path
  | none => trimSlashes url

def rewriteStoryUrl (ctx : LinkContext) (url : String) : String :=
  let slug := extractSlugFromUrl ctx url
  if slug == "" then cleanUrl ctx url
  else
    match ctx.stories.find? (fun s =>
        s.slug == slug || s.fullSlug == slug || s.path == slug) with
    | some story => if story.fullSlug == "" then story.slug else story.fullSlug
    | none => cleanUrl ctx url

def lastComp (url : String) : String :=
  ⟨(splitOnChar '/' url.data).getLastD []⟩

def rewriteAssetUrl (ctx : LinkContext) (url : String) : String :=
  match ctx.assets.find? (fun a =>
      a.filename == url || strEnds a.filename (lastComp url)) with
  | some a => a.filename
  | none => url

/-- The `asset` rewriter registered first: its regex
`/\\?attachment_id=(\\d+)/` captures an optional backslash, the literal
`attachment_id=`, then a literal backslash followed by `d`s; `parseInt` of
such a capture is `NaN`, modelled as `none`. -/
def capAfterEq : List Char → Option String
  | '\\' :: 'd' :: rest =>
    some ⟨'\\' :: 'd' :: rest.takeWhile (fun c => c == 'd')⟩
  | _ => none

def attachCapAt (l : List Char) : Option String :=
  if "attachment_id=".data.isPrefixOf l then
    capAfterEq (l.drop "attachment_id=".data.length)
  else none

def firstPos {α : Type} (f : List Char → Option α) : List Char → Option α
  | [] => f []
  | c :: rest =>
    match f (c :: rest) with
    | some x => some x
    | none => firstPos f rest

def parseIntModel (s : String) : Option Nat :=
  let l := s.data.dropWhile isWsChar
  let ds := l.takeWhile Char.isDigit
  if ds.isEmpty then none
  else some (ds.foldl (fun acc c => acc * 10 + (c.toNat - 48)) 0)

def attachmentRewriter (ctx : LinkContext) (url : String) : Option String :=
  match firstPos attachCapAt url.data with
  | none => none
  | some g =>
    match parseIntModel g with
    | none => none
    | some n =>
      match ctx.media.find? (fun m => m.1 == n) with
      | some m => if m.2 == "" then none else some m.2
      | none => none

def wpParamKeys : List String :=
  ["p", "page_id", "attachment_id", "preview", "preview_id"]

/-- The `*` rewriter registered second: strips WordPress-specific query
parameters via `new URL(url, 'http://example.com')` and removes the
artificial base from the rendered result.  It returns a value for every
input (its `catch` returns the url), so the switch over link types in
`rewriteUrl` below is never reached. -/
def wildcardRewriter (url : String) : Option String :=
  some (match parseWithBase url "http://example.com" with
    | none => url
    | some u =>
      dropLeadingLit "http://example.com"
        (urlToString ⟨u.scheme, u.host, u.path,
          u.query.filter fun kv => !(wpParamKeys.contains kv.1)⟩))

def stripWpParams (url : String) : String := (wildcardRewriter url).getD url

def rewriteUrl (ctx : LinkContext) (url : String) (lt : LinkType) : String :=
  match (if lt = LinkType.asset then attachmentRewriter ctx url else none) with
  | some r => r
  | none =>
    match wildcardRewriter url with
    | some r => r
    | none =>
      match lt with
      | LinkType.story => rewriteStoryUrl ctx url
      | LinkType.asset => rewriteAssetUrl ctx url
      | LinkType.email => if strStarts url "mailto:" then url else "mailto:" ++ url
      | LinkType.url => url

def addLinkTypeProperties (ctx : LinkContext) (lo : LinkObject)
    (originalUrl : String) : LinkObject :=
  match lo.linktype with
  | LinkType.story =>
    match ctx.stories.find? (fun s => s.fullSlug == lo.url || s.slug == lo.url) with
    | some story =>
      if story.id == 0 then lo else { lo with id := decRepr story.id }
    | none => lo
  | LinkType.asset =>
    match ctx.assets.find? (fun a => a.filename == lo.url) with
    | some a => if a.id == 0 then lo else { lo with id := decRepr a.id }
    | none => lo
  | LinkType.email => { lo with email := some (dropLeadingLit "mailto:" originalUrl) }
  | LinkType.url => lo

def createLinkObject (ctx : LinkContext) (url text : String)
    (target : Option String) : LinkObject :=
  let lt := detectLinkType ctx url
  let rw := rewriteUrl ctx url lt
  let base : LinkObject :=
    { id := "", url := rw, linktype := lt, fieldtype := "multilink",
      cachedUrl := rw,
      target := match target with
        | some t => if t == "" then none else some t
        | none => none,
      email := none }
  addLinkTypeProperties ctx base url

end LinkTransformer

/-- Context for the C5 scenario: a configured site URL and an empty story
registry (the candidate slug of the link matches no story). -/
def demoLinkCtx : LinkContext :=
  { siteUrl := some "https://site.example", stories := [], assets := [],
    taxonomiesCreatePages := false, media := [] }

theorem rewriteUrl_story_eq (ctx : LinkContext) (url : String) :
    LinkTransformer.rewriteUrl ctx url LinkType.story =
      LinkTransformer.stripWpParams url := rfl

/-- C5 (amended): an internal (story-classified) link whose candidate slug
matches no story in the registry is *not* downgraded to the url kind: the
produced link object keeps the story kind, and its url is the original URL
after the wildcard rewriter stripped WordPress-specific query parameters
(for URLs without such parameters, the original URL).  It is never null —
`createLinkObject` always returns a link object; the switch in `rewriteUrl`
that would call `rewriteStoryUrl` or downgrade anything is unreachable
because the `*` rewriter always returns a value. -/
theorem unresolved_story_link_behavior (ctx : LinkContext) (url text : String)
    (target : Option String)
    (hstory : LinkTransformer.detectLinkType ctx url = LinkType.story)
    (hnores : ∀ s ∈ ctx.stories,
      s.slug ≠ LinkTransformer.extractSlugFromUrl ctx url ∧
      s.fullSlug ≠ LinkTransformer.extractSlugFromUrl ctx url ∧
      s.path ≠ LinkTransformer.extractSlugFromUrl ctx url) :
    (LinkTransformer.createLinkObject ctx url text target).linktype =
        LinkType.story ∧
      (LinkTransformer.createLinkObject ctx url text target).url =
        LinkTransformer.stripWpParams url := by
  unfold LinkTransformer.createLinkObject
  rw [hstory]
  simp only [rewriteUrl_story_eq]
  unfold LinkTransformer.addLinkTypeProperties
  simp only
  cases hfind : ctx.stories.find? (fun s =>
      s.fullSlug == LinkTransformer.stripWpParams url ||
        s.slug == LinkTransformer.stripWpParams url) with
  | none => exact ⟨by trivial, by trivial⟩
  | some story =>
    by_cases hid : (story.id == 0) = true
    · simp only [hid, if_true]
      exact ⟨by trivial, by trivial⟩
    · simp only [hid, if_false]
      exact ⟨by trivial, by trivial⟩

/-- C5 witness: a story link to a slug absent from the registry keeps the
story kind and the original URL. -/
theorem unresolved_story_link_behavior_witness :
    (LinkTransformer.createLinkObject demoLinkCtx
        "https://site.example/blog/missing" "" none).linktype =
        LinkType.story ∧
      (LinkTransformer.createLinkObject demoLinkCtx
        "https://site.example/blog/missing" "" none).url =
        LinkTransformer.stripWpParams "https://site.example/blog/missing" :=
  unresolved_story_link_behavior demoLinkCtx
    "https://site.example/blog/missing" "" none (by decide) (by simp [demoLinkCtx])

/-- C5 counterexample: after the transformer has run (there is no later patch
pass in the repository), the link for a non-existent slug still has the
story kind — it does not become the external/url kind as claimed — and its
url is the raw original URL, not null. -/
theorem unresolved_link_counterexample :
    (LinkTransformer.createLinkObject demoLinkCtx
        "https://site.example/blog/missing" "" none).linktype =
        LinkType.story ∧
      (LinkTransformer.createLinkObject demoLinkCtx
        "https://site.example/blog/missing" "" none).linktype ≠
        LinkType.url ∧
      (LinkTransformer.createLinkObject demoLinkCtx
        "https://site.example/blog/missing" "" none).url =
        "https://site.example/blog/missing" := by decide

/-- Context for the C6 scenario: the story registry contains item B with its
final slug, as it stands after all items of the locale were mapped. -/
def c6Ctx : LinkContext :=
  { siteUrl := some "https://site.example",
    stories := [{ slug := "b-post", fullSlug := "blog/b-post",
                  path := "blog/b-post", id := 12 }],
    assets := [], taxonomiesCreatePages := false, media := [] }

/-- C6: even with B present in the registry, the link produced for a URL
pointing at B keeps the raw URL — it is never rewritten to B's final slug,
because the `*` query-parameter rewriter returns a value for every URL, so
`rewriteUrl` never reaches its `rewriteStoryUrl` branch; the last conjunct
shows that the (unreachable) `rewriteStoryUrl` routine would have produced
B's full slug.  No pending-link registry or orchestrator patch pass exists
anywhere in the repository. -/
theorem forward_link_not_resolved :
    (LinkTransformer.createLinkObject c6Ctx
        "https://site.example/b-post" "" none).linktype = LinkType.story ∧
      (LinkTransformer.createLinkObject c6Ctx
        "https://site.example/b-post" "" none).url =
        "https://site.example/b-post" ∧
      (LinkTransformer.createLinkObject c6Ctx
        "https://site.example/b-post" "" none).url ≠ "blog/b-post" ∧
      LinkTransformer.rewriteStoryUrl c6Ctx "https://site.example/b-post" =
        "blog/b-post" := by decide

/-! ## JavaScript value model

Loosely-typed field values flowing through `FieldTransformer`
(src/packages/mapping/src/transformers/FieldTransformer.js), with JS
truthiness.  Richtext documents are JS objects; they are carried by a
dedicated constructor so the richtext embedding above can be reused. -/

inductive JsValue where
  | null
  | undef
  | bool (b : Bool)
  | num (n : Int)
  | str (s : String)
  | arr (xs : List JsValue)
  | obj (fields : List (String × JsValue))
  | richdoc (d : RtDoc)

def truthy : JsValue → Bool
  | JsValue.null => false
  | JsValue.undef => false
  | JsValue.bool b => b
  | JsValue.num n => n != 0
  | JsValue.str s => s != ""
  | JsValue.arr _ => true
  | JsValue.obj _ => true
  | JsValue.richdoc _ => true

def getField (fields : List (String × JsValue)) (k : String) : JsValue :=
  match fields.find? (fun f => f.1 == k) with
  | some f => f.2
  | none => JsValue.undef

/-- JS `a || b`. -/
def jsOr (a b : JsValue) : JsValue := if truthy a then a else b

def intRepr : Int → String
  | Int.ofNat m => decRepr m
  | Int.negSucc m => "-" ++ decRepr (m + 1)

def joinComma (l : List String) : String :=
  ⟨List.intercalate [','] (l.map String.data)⟩

/-- JS `String(value)` / template interpolation.  Arrays are rendered with a
recursion budget of 1000 nesting levels, ample for every value considered. -/
def jsToStringFuel (fuel : Nat) : JsValue → String
  | JsValue.null => "null"
  | JsValue.undef => "undefined"
  | JsValue.bool b => cond b "true" "false"
  | JsValue.num n => intRepr n
  | JsValue.str s => s
  | JsValue.arr xs =>
    match fuel with
    | 0 => ""
    | fuel' + 1 =>
      joinComma (xs.map fun x =>
        match x with
        | JsValue.null => ""
        | JsValue.undef => ""
        | y => jsToStringFuel fuel' y)
  | JsValue.obj _ => "[object Object]"
  | JsValue.richdoc _ => "[object Object]"

def jsToString (v : JsValue) : String := jsToStringFuel 1000 v

/-! ## FieldTransformer

Shallow embedding of `FieldTransformer.transform`,
`applyStringTransformer`, `applyFunctionTransformer` and the named
transforms.  Errors thrown by JavaScript are modelled with `Except String`;
the oracle fields of `TransformEnv` stand for the external collaborators
(richtext parser, cheerio, `new Date`), the remaining fields for the merged
transformer configuration (all defaults correspond to an empty config), and
`language`/`rand` for the context language and the `Math.random` suffix used
in generated UUIDs. -/

structure TransformEnv where
  parse : String → Option RtDoc
  process : String → String
  strip : String → String
  parseDate : JsValue → Option String
  formatDate : String → String → String
  datetimeFormat : Option String
  createDatasource : Bool
  trimFlag : Bool
  stripTagsFlag : Bool
  maxLength : Option Nat
  appendEllipsis : Bool
  language : String
  rand : String

structure StoryRef where
  id : String
  uuid : String
  cachedUrl : String
  linktype : String
deriving DecidableEq

inductive TransformerSpec where
  | named (kind : String)
  | objSpec (kind : String)
  | objFn (f : JsValue → Except String JsValue)
  | fn (f : JsValue → Except String JsValue)
  | other

namespace FieldTransformer

def generateReferenceUUID (idStr language rand : String) : String :=
  "ref-" ++ idStr ++ "-" ++ language ++ "-" ++ rand

/-- The source's `if (typeof value === 'object') referenceId = value.id ||
value.ID` applies to every JS object: plain objects, arrays (JS
`typeof [] === 'object'`) and richtext documents.  An array or richtext
document carries no `id`/`ID` property, so the lookup yields `undefined`
for them. -/
def refIdOf (v : JsValue) : JsValue :=
  match v with
  | JsValue.obj fs => jsOr (getField fs "id") (getField fs "ID")
  | JsValue.arr _ => jsOr (getField [] "id") (getField [] "ID")
  | JsValue.richdoc _ => jsOr (getField [] "id") (getField [] "ID")
  | _ => v

def transformReference (v : JsValue) (language rand : String) : Option StoryRef :=
  if truthy v then
    let referenceId := refIdOf v
    if truthy referenceId then
      some { id := "",
             uuid := generateReferenceUUID (jsToString referenceId) language rand,
             cachedUrl := "", linktype := "story" }
    else none
  else none

def transformReferences (v : JsValue) (language rand : String) : List StoryRef :=
  match v with
  | JsValue.arr xs => xs.filterMap fun x => transformReference x language rand
  | _ => []

def storyRefToJs (r : StoryRef) : JsValue :=
  JsValue.obj [("id", JsValue.str r.id), ("uuid", JsValue.str r.uuid),
    ("cached_url", JsValue.str r.cachedUrl), ("linktype", JsValue.str r.linktype)]

def refToJsOpt : Option StoryRef → JsValue
  | some r => storyRefToJs r
  | none => JsValue.null

/-- One tag entry; `tag.toLowerCase()` throws when the entry is not a
string.  The name-and-slug shape follows the source; `slugify` is called
here without the strict option, which agrees with the strict model on the
alphanumeric-and-space tags considered. -/
def tagEntry (env : TransformEnv) (t : JsValue) : Except String JsValue :=
  match t with
  | JsValue.str s =>
    if env.createDatasource then
      Except.ok (JsValue.obj [("id", JsValue.str ""),
        ("uuid", JsValue.str ("tag-" ++ slugifyLib (lowerStr s) ++ "-" ++
          env.language ++ "-" ++ env.rand)),
        ("cached_url", JsValue.str ""), ("linktype", JsValue.str "story")])
    else
      Except.ok (JsValue.obj [("name", JsValue.str s),
        ("slug", JsValue.str (slugifyLib (lowerStr s)))])
  | _ => Except.error "tag.toLowerCase is not a function"

def splitCommaTrim (s : String) : List String :=
  (splitOnChar ',' s.data).map fun p => trimStr ⟨p⟩

def transformTags (env : TransformEnv) (v : JsValue) : Except String JsValue :=
  if truthy v then
    match v with
    | JsValue.arr xs => (xs.mapM (tagEntry env)).map JsValue.arr
    | JsValue.str s =>
      (((splitCommaTrim s).map JsValue.str).mapM (tagEntry env)).map JsValue.arr
    | _ => Except.error "value.split is not a function"
  else Except.ok (JsValue.arr [])

def transformDatetime (env : TransformEnv) (v : JsValue) : Except String JsValue :=
  if truthy v then
    match env.parseDate v with
    | none => Except.ok (JsValue.str "")
    | some iso =>
      match env.datetimeFormat with
      | some f => Except.ok (JsValue.str (env.formatDate iso f))
      | none => Except.ok (JsValue.str iso)
  else Except.ok (JsValue.str "")

def transformRichtext (env : TransformEnv) (v : JsValue) : Except String JsValue :=
  match v with
  | JsValue.str s =>
    if s == "" then Except.ok (JsValue.richdoc ⟨[]⟩)
    else Except.ok (JsValue.richdoc
      (HtmlToRichtextTransformer.transform env.parse env.process env.strip s))
  | _ => Except.ok (JsValue.richdoc ⟨[]⟩)

def assetUrlOf (v : JsValue) : JsValue :=
  match v with
  | JsValue.obj fs =>
    jsOr (getField fs "url") (jsOr (getField fs "src") (getField fs "guid"))
  | _ => v

/-- Whether the extracted asset URL is a truthy string (the only case in
which `transformAsset` proceeds past its guards). -/
def usableUrl (v : JsValue) : Bool :=
  match v with
  | JsValue.str s => s != ""
  | _ => false

/-- The `AssetTransformer` class has no `transformSingle` method, so the
call `this.assetTransformer.transformSingle(assetUrl, config)` throws a
`TypeError` whenever it is reached (for any truthy string URL). -/
def transformAsset (env : TransformEnv) (v : JsValue) : Except String JsValue :=
  if truthy v then
    match assetUrlOf v with
    | JsValue.str s =>
      if s == "" then Except.ok JsValue.null
      else Except.error "this.assetTransformer.transformSingle is not a function"
    | _ => Except.ok JsValue.null
  else Except.ok JsValue.null

def linkDefaultJs : JsValue :=
  JsValue.obj [("linktype", JsValue.str "url"), ("url", JsValue.str ""),
    ("cached_url", JsValue.str "")]

def linkUrlOf (v : JsValue) : JsValue :=
  match v with
  | JsValue.obj fs =>
    jsOr (getField fs "url") (jsOr (getField fs "href") (getField fs "link"))
  | _ => v

/-- The `LinkTransformer` class has no `transform` method, so the call
`this.linkTransformer.transform(linkUrl, config)` throws whenever it is
reached. -/
def transformLink (env : TransformEnv) (v : JsValue) : Except String JsValue :=
  if truthy v then
    match linkUrlOf v with
    | JsValue.str s =>
      if s == "" then Except.ok linkDefaultJs
      else Except.error "this.linkTransformer.transform is not a function"
    | _ => Except.ok linkDefaultJs
  else Except.ok linkDefaultJs

def stripTagsReAux : Nat → List Char → List Char
  | 0, _ => []
  | _, [] => []
  | fuel + 1, '<' :: rest =>
    match breakOnAux ['>'] rest with
    | some (_, post) => stripTagsReAux fuel post
    | none => '<' :: stripTagsReAux fuel rest
  | fuel + 1, c :: rest => c :: stripTagsReAux fuel rest

/-- Model of `stringValue.replace(/<[^>]*>/g, '')`. -/
def stripTagsRe (s : String) : String :=
  ⟨stripTagsReAux (s.data.length + 1) s.data⟩

def transformString (env : TransformEnv) (v : JsValue) : Except String JsValue :=
  match v with
  | JsValue.null => Except.ok (JsValue.str "")
  | JsValue.undef => Except.ok (JsValue.str "")
  | _ =>
    let s0 := jsToString v
    let s1 := if env.trimFlag then trimStr s0 else s0
    let s2 := if env.stripTagsFlag then stripTagsRe s1 else s1
    let s3 :=
      match env.maxLength with
      | some m =>
        if s2.data.length > m then
          (⟨s2.data.take m⟩ : String) ++ (if env.appendEllipsis then "..." else "")
        else s2
      | none => s2
    Except.ok (JsValue.str s3)

def applyStringTransformer (env : TransformEnv) (v : JsValue) (k : String) :
    Except String JsValue :=
  if k = "richtext" then transformRichtext env v
  else if k = "asset" then transformAsset env v
  else if k = "reference" then
    Except.ok (refToJsOpt (transformReference v env.language env.rand))
  else if k = "references" then
    Except.ok (JsValue.arr ((transformReferences v env.language env.rand).map
      storyRefToJs))
  else if k = "tags" then transformTags env v
  else if k = "datetime" then transformDatetime env v
  else if k = "link" then transformLink env v
  else if k = "string" then transformString env v
  else Except.ok v

/-- `applyFunctionTransformer` has its own try/catch returning the original
value. -/
def applyFunctionTransformer (v : JsValue)
    (f : JsValue → Except String JsValue) : Except String JsValue :=
  match f v with
  | Except.ok r => Except.ok r
  | Except.error _ => Except.ok v

def transform (env : TransformEnv) (v : JsValue) (t : Option TransformerSpec) :
    JsValue :=
  match t with
  | none => v
  | some spec =>
    match v with
    | JsValue.null => v
    | JsValue.undef => v
    | _ =>
      let r : Except String JsValue :=
        match spec with
        | TransformerSpec.named k => applyStringTransformer env v k
        | TransformerSpec.objSpec k => applyStringTransformer env v k
        | TransformerSpec.objFn f => applyFunctionTransformer v f
        | TransformerSpec.fn f => applyFunctionTransformer v f
        | TransformerSpec.other => Except.ok v
      match r with
      | Except.ok x => x
      | Except.error _ => v

end FieldTransformer

def defaultEnv : TransformEnv :=
  { parse := fun _ => none, process := id, strip := stripTagsModel,
    parseDate := fun _ => none, formatDate := fun iso _ => iso,
    datetimeFormat := none, createDatasource := false,
    trimFlag := false, stripTagsFlag := false, maxLength := none,
    appendEllipsis := false, language := "en", rand := "r0" }

/-- An input the reference transform drops: falsy, or a JS object (plain
object, array or richtext document) without a truthy `id`/`ID` property.
Numericness of the id plays no role. -/
def badRefInput (v : JsValue) : Bool :=
  !truthy v || !truthy (FieldTransformer.refIdOf v)

theorem transformReference_isNone (v : JsValue) (language rand : String) :
    (FieldTransformer.transformReference v language rand).isNone =
      badRefInput v := by
  unfold FieldTransformer.transformReference badRefInput
  by_cases h1 : truthy v = true
  · by_cases h2 : truthy (FieldTransformer.refIdOf v) = true
    · simp [h1, h2]
    · simp only [Bool.not_eq_true] at h2
      simp [h1, h2]
  · simp only [Bool.not_eq_true] at h1
    simp [h1]

theorem length_filterMap_isSome {α β : Type} (f : α → Option β) (l : List α) :
    (l.filterMap f).length = (l.filter fun x => (f x).isSome).length := by
  induction l with
  | nil => rfl
  | cons x xs ih =>
    cases hfx : f x with
    | none => simp [List.filterMap_cons, List.filter_cons, hfx, ih]
    | some b => simp [List.filterMap_cons, List.filter_cons, hfx, ih]

/-- C7 (amended): the reference transforms drop exactly the *falsy* entries
(missing ids, null, 0, empty string — and JS objects, arrays included,
without a truthy `id`/`ID` property); non-numeric but truthy ids are NOT
dropped.  A single falsy
`reference` yields null; `references` keeps one entry per non-falsy input
entry; non-array input yields an empty list. -/
theorem transformReference_falsy_characterization (v : JsValue)
    (language rand : String) :
    (FieldTransformer.transformReference v language rand).isNone =
        badRefInput v ∧
      (∀ xs, (FieldTransformer.transformReferences (JsValue.arr xs) language
          rand).length = (xs.filter fun x => !badRefInput x).length) ∧
      ∀ w, (∀ xs, w ≠ JsValue.arr xs) →
        FieldTransformer.transformReferences w language rand = [] := by
  refine ⟨transformReference_isNone v language rand, ?_, ?_⟩
  · intro xs
    unfold FieldTransformer.transformReferences
    rw [length_filterMap_isSome]
    congr 1
    apply List.filter_congr
    intro x _
    have h := transformReference_isNone x language rand
    cases hx : FieldTransformer.transformReference x language rand with
    | none =>
      rw [hx] at h
      simp at h
      simp [hx, h]
    | some r =>
      rw [hx] at h
      simp at h
      simp [hx, h]
  · intro w hw
    cases w with
    | arr xs => exact absurd rfl (hw xs)
    | null => rfl
    | undef => rfl
    | bool b => rfl
    | num n => rfl
    | str s => rfl
    | obj fs => rfl
    | richdoc d => rfl

/-- C7 witness: a falsy single reference is null, and non-array input to
`references` gives an empty list. -/
theorem transformReference_falsy_characterization_witness :
    (FieldTransformer.transformReference (JsValue.num 0) "en" "r0").isNone =
        badRefInput (JsValue.num 0) ∧
      (FieldTransformer.transformReference
        (JsValue.arr [JsValue.num 5]) "en" "r0").isNone = true ∧
      FieldTransformer.transformReferences (JsValue.num 7) "en" "r0" = [] := by
  have h := transformReference_falsy_characterization (JsValue.num 0) "en" "r0"
  have h2 := transformReference_falsy_characterization
    (JsValue.arr [JsValue.num 5]) "en" "r0"
  refine ⟨h.1, ?_, h.2.2 (JsValue.num 7) (fun xs hh => JsValue.noConfusion hh)⟩
  rw [h2.1]
  rfl

/-- C7 counterexample: a non-numeric id "abc" is truthy, so it is *not*
dropped: the single transform returns a reference (not null) and the array
transform keeps the entry. -/
theorem nonNumeric_reference_counterexample :
    (FieldTransformer.transformReference (JsValue.str "abc") "en" "r0").isSome =
        true ∧
      (FieldTransformer.transformReferences
        (JsValue.arr [JsValue.str "abc"]) "en" "r0").length = 1 := ⟨rfl, rfl⟩

theorem transform_named_eq (env : TransformEnv) (v : JsValue) (k : String)
    (h1 : v ≠ JsValue.null) (h2 : v ≠ JsValue.undef) :
    FieldTransformer.transform env v (some (TransformerSpec.named k)) =
      match FieldTransformer.applyStringTransformer env v k with
      | Except.ok x => x
      | Except.error _ => v := by
  cases v with
  | null => exact absurd rfl h1
  | undef => exact absurd rfl h2
  | bool b => rfl
  | num n => rfl
  | str s => rfl
  | arr xs => rfl
  | obj fs => rfl
  | richdoc d => rfl

/-- C8 (amended): the tags transform never raises to its caller — the
dispatcher `FieldTransformer.transform` catches every internal error — but
truthy input that is neither an array nor a string does NOT yield an empty
list: `value.split` throws, the catch returns the *original value*.  (Falsy
input does yield an empty list.) -/
theorem transformTags_error_fallback (env : TransformEnv) (v : JsValue)
    (htr : truthy v = true)
    (hnstr : ∀ s, v ≠ JsValue.str s) (hnarr : ∀ xs, v ≠ JsValue.arr xs) :
    FieldTransformer.transform env v (some (TransformerSpec.named "tags")) = v := by
  have hne1 : v ≠ JsValue.null := by
    intro h
    rw [h] at htr
    exact Bool.noConfusion htr
  have hne2 : v ≠ JsValue.undef := by
    intro h
    rw [h] at htr
    exact Bool.noConfusion htr
  rw [transform_named_eq env v "tags" hne1 hne2]
  have htags : FieldTransformer.applyStringTransformer env v "tags" =
      FieldTransformer.transformTags env v := rfl
  rw [htags]
  unfold FieldTransformer.transformTags
  rw [if_pos htr]
  cases v with
  | null => exact absurd rfl hne1
  | undef => exact absurd rfl hne2
  | bool b => rfl
  | num n => rfl
  | str s => exact absurd rfl (hnstr s)
  | arr xs => exact absurd rfl (hnarr xs)
  | obj fs => rfl
  | richdoc d => rfl

/-- C8 witness: the number 5 is truthy, neither array nor string, and comes
back unchanged from the tags transform. -/
theorem transformTags_error_fallback_witness :
    FieldTransformer.transform defaultEnv (JsValue.num 5)
        (some (TransformerSpec.named "tags")) = JsValue.num 5 :=
  transformTags_error_fallback defaultEnv (JsValue.num 5) rfl
    (fun _ h => JsValue.noConfusion h) (fun _ h => JsValue.noConfusion h)

/-- C8 counterexample: unparsable input (the number 5) yields the original
value, not the empty list the claim requires. -/
theorem tags_unparsable_counterexample :
    FieldTransformer.transform defaultEnv (JsValue.num 5)
        (some (TransformerSpec.named "tags")) = JsValue.num 5 ∧
      FieldTransformer.transform defaultEnv (JsValue.num 5)
        (some (TransformerSpec.named "tags")) ≠ JsValue.arr [] := by
  constructor
  · rfl
  · intro h
    rw [show FieldTransformer.transform defaultEnv (JsValue.num 5)
      (some (TransformerSpec.named "tags")) = JsValue.num 5 from rfl] at h
    exact JsValue.noConfusion h

/-- C9: the asset transform returns null — with no error raised — on every
empty input (null, undefined, empty string, object without a usable URL),
`AssetExtractor.extractAsset` resolves to null when the download fails (its
single attempt is the retry budget of this extractor), and the dispatcher
passes that null through instead of failing the item. -/
theorem transformAsset_empty_null (env : TransformEnv)
    (fs : List (String × JsValue)) (download : String → Option DownloadResult)
    (st : ExtractorState) (url : String) (md : AssetMetadata)
    (husable : FieldTransformer.usableUrl
      (FieldTransformer.assetUrlOf (JsValue.obj fs)) = false)
    (hfind : findExistingAsset st.assets url = none)
    (hdl : download url = none) :
    FieldTransformer.transformAsset env JsValue.null = Except.ok JsValue.null ∧
      FieldTransformer.transformAsset env JsValue.undef = Except.ok JsValue.null ∧
      FieldTransformer.transformAsset env (JsValue.str "") =
        Except.ok JsValue.null ∧
      FieldTransformer.transformAsset env (JsValue.obj fs) =
        Except.ok JsValue.null ∧
      (extractAsset download st url md).1 = none ∧
      FieldTransformer.transform env (JsValue.str "")
        (some (TransformerSpec.named "asset")) = JsValue.null := by
  refine ⟨rfl, rfl, rfl, ?_, ?_, rfl⟩
  · unfold FieldTransformer.transformAsset
    rw [if_pos (show truthy (JsValue.obj fs) = true from rfl)]
    unfold FieldTransformer.usableUrl at husable
    cases hcase : FieldTransformer.assetUrlOf (JsValue.obj fs) with
    | str s =>
      rw [hcase] at husable
      have hs : s = "" := by simpa using husable
      subst hs
      rfl
    | null => rfl
    | undef => rfl
    | bool b => rfl
    | num n => rfl
    | arr xs => rfl
    | obj gs => rfl
    | richdoc d => rfl
  · unfold extractAsset
    rw [hfind, hdl]

/-- C9 witness: concrete empty inputs and a failing download. -/
theorem transformAsset_empty_null_witness :
    FieldTransformer.transformAsset defaultEnv JsValue.null =
        Except.ok JsValue.null ∧
      FieldTransformer.transformAsset defaultEnv JsValue.undef =
        Except.ok JsValue.null ∧
      FieldTransformer.transformAsset defaultEnv (JsValue.str "") =
        Except.ok JsValue.null ∧
      FieldTransformer.transformAsset defaultEnv
        (JsValue.obj [("alt", JsValue.str "x")]) = Except.ok JsValue.null ∧
      (extractAsset (fun _ => none) (⟨[], 1, []⟩ : ExtractorState)
        "https://ext.example/missing.jpg" demoMd).1 = none ∧
      FieldTransformer.transform defaultEnv (JsValue.str "")
        (some (TransformerSpec.named "asset")) = JsValue.null :=
  transformAsset_empty_null defaultEnv [("alt", JsValue.str "x")]
    (fun _ => none) (⟨[], 1, []⟩ : ExtractorState)
    "https://ext.example/missing.jpg" demoMd rfl rfl rfl

/-- C10: boundary identities of the dispatcher: a missing transformer spec
returns the value unchanged; a null or undefined value is returned unchanged
without invoking any named transform (so a null richtext field stays null
instead of becoming an empty document); and when an inner named transform
throws, the catch returns the *original value*, not a safe default. -/
theorem fieldTransform_identity_edges (env : TransformEnv) (v : JsValue)
    (spec : TransformerSpec) (k msg : String)
    (herr : FieldTransformer.applyStringTransformer env v k =
      Except.error msg) :
    FieldTransformer.transform env v none = v ∧
      FieldTransformer.transform env JsValue.null (some spec) = JsValue.null ∧
      FieldTransformer.transform env JsValue.undef (some spec) = JsValue.undef ∧
      FieldTransformer.transform env JsValue.null
        (some (TransformerSpec.named "richtext")) = JsValue.null ∧
      FieldTransformer.transform env v (some (TransformerSpec.named k)) = v := by
  refine ⟨rfl, rfl, rfl, rfl, ?_⟩
  by_cases hnull : v = JsValue.null
  · subst hnull
    rfl
  · by_cases hundef : v = JsValue.undef
    · subst hundef
      rfl
    · rw [transform_named_eq env v k hnull hundef, herr]

/-- C10 witness: the tags transform throws on the number 5; the dispatcher
returns the original value, and null/missing-spec cases are identities. -/
theorem fieldTransform_identity_edges_witness :
    FieldTransformer.transform defaultEnv (JsValue.num 5) none = JsValue.num 5 ∧
      FieldTransformer.transform defaultEnv JsValue.null
        (some (TransformerSpec.named "asset")) = JsValue.null ∧
      FieldTransformer.transform defaultEnv JsValue.undef
        (some (TransformerSpec.named "asset")) = JsValue.undef ∧
      FieldTransformer.transform defaultEnv JsValue.null
        (some (TransformerSpec.named "richtext")) = JsValue.null ∧
      FieldTransformer.transform defaultEnv (JsValue.num 5)
        (some (TransformerSpec.named "tags")) = JsValue.num 5 :=
  fieldTransform_identity_edges defaultEnv (JsValue.num 5)
    (TransformerSpec.named "asset") "tags"
    "value.split is not a function" rfl
